import Mathlib

/-!
# Shallow embedding of the toy-banking bank service core
(`src/bank_service/models.py`)

Conventions of the embedding:
* `uuid.UUID` values (account ids, transaction ids) are modelled as `Nat`.
* `Decimal` money amounts have two fixed decimal places in the source
  (`max_digits=9, decimal_places=2`); they are modelled as `Int` counts of
  cents (so `50.00` is `5000`, `250.50` is `25050`).  The core only adds and
  compares amounts, which the cents encoding captures exactly.
* `datetime` timestamps are modelled as `Nat` and passed explicitly as a
  `now` argument to operations that call `datetime.now()`.
* An annotation entry (`dict[str, Any]` in the source) is modelled as a list
  of key/value string pairs.
* The database session is modelled as explicit state passing over a
  `LedgerStore` (the two tables).  SQLAlchemy's `ScalarResult.one()` raises
  `NoResultFound` / `MultipleResultsFound`; an `INSERT` of a row whose
  primary key already exists fails the commit with an `IntegrityError`.
  These failure modes are the `DBError` type, and a failing operation
  returns `Except.error` without having changed the store — matching the
  source, where the exception aborts the session before any commit.
-/

inductive BankAccountStateType where
  | active
  | canceled
deriving DecidableEq, Repr

inductive AccountTransactionStateType where
  | pending
  | completed
  | canceled
deriving DecidableEq, Repr

/-- One annotation entry: a free-form key/value record. -/
abbrev Annotation := List (String × String)

/-- `class BankAccount(SQLModel, table=True)`. -/
structure BankAccount where
  id : Nat
  name : String
  account_number : String
  state : BankAccountStateType
  balance : Int
deriving DecidableEq, Repr

/-- `class AccountTransaction(SQLModel, table=True)`. -/
structure AccountTransaction where
  id : Nat
  account_id : Nat
  amount : Int
  state : AccountTransactionStateType
  annotations : List Annotation
  description : String
  timestamp : Nat
deriving DecidableEq, Repr

/-- The two tables of the bank service database. -/
structure LedgerStore where
  accounts : List BankAccount
  transactions : List AccountTransaction
deriving DecidableEq, Repr

/-- Failure modes of the session layer: `NoResultFound` and
`MultipleResultsFound` raised by `ScalarResult.one()`, and `IntegrityError`
raised by a commit that inserts a duplicate primary key. -/
inductive DBError where
  | notFound
  | multipleResults
  | integrityError
deriving DecidableEq, Repr

deriving instance DecidableEq for Except

/-- `ScalarResult.one()`: exactly one row or an exception. -/
def execOne (l : List α) : Except DBError α :=
  match l with
  | [] => .error .notFound
  | [a] => .ok a
  | _ :: _ :: _ => .error .multipleResults

/-- `BankAccount.calculate_balance`: select the transactions whose
`account_id` equals `self.id`, then fold them, skipping `CANCELED` ones. -/
def BankAccount.calculate_balance (self : BankAccount) (db : LedgerStore) : Int :=
  (db.transactions.filter (fun t => t.account_id == self.id)).foldl
    (fun balance t =>
      if t.state == AccountTransactionStateType.canceled then balance
      else balance + t.amount) 0

/-- `create_or_update_transaction`: resolve the account by `account_number`
via `.one()`; fetch the first transaction matching
`account_id == bank_account.id and id == transaction_id`; if present, update
amount/state/description/timestamp in place and extend its annotation list;
otherwise insert a new row with the caller-supplied id (the commit enforces
the primary-key uniqueness of `AccountTransaction.id`, so inserting an id
that already exists anywhere in the table fails with `IntegrityError`). -/
def create_or_update_transaction (db : LedgerStore) (transaction_id : Nat)
    (account_number : String) (state : AccountTransactionStateType)
    (description : String) (annotations : List Annotation) (amount : Int)
    (now : Nat) : Except DBError LedgerStore :=
  match execOne (db.accounts.filter (fun a => a.account_number == account_number)) with
  | .error e => .error e
  | .ok bank_account =>
    match (db.transactions.filter (fun t =>
        t.account_id == bank_account.id && t.id == transaction_id)).head? with
    | some account_transaction =>
      let updated : AccountTransaction :=
        { account_transaction with
          amount := amount
          state := state
          annotations := account_transaction.annotations ++ annotations
          description := description
          timestamp := now }
      .ok { db with transactions :=
        db.transactions.map (fun t =>
          if t.id == account_transaction.id then updated else t) }
    | none =>
      if db.transactions.any (fun t => t.id == transaction_id) then
        .error .integrityError
      else
        .ok { db with transactions := db.transactions ++
          [{ id := transaction_id
             account_id := bank_account.id
             amount := amount
             state := state
             annotations := annotations
             description := description
             timestamp := now }] }

/-- `update_balance`: resolve the account by `account_number` via `.one()`,
recompute its balance with `calculate_balance`, and commit the single
account row (keyed by its primary key `id`). -/
def update_balance (db : LedgerStore) (account_number : String) :
    Except DBError LedgerStore :=
  match execOne (db.accounts.filter (fun a => a.account_number == account_number)) with
  | .error e => .error e
  | .ok bank_account =>
    .ok { db with accounts :=
      db.accounts.map (fun a =>
        if a.id == bank_account.id then
          { a with balance := bank_account.calculate_balance db }
        else a) }

/-- The data `generate_bank_account()` (plus the generated `uuid4` id and
`datetime.now()` timestamp) contributes for one fake account inside
`reset_accounts`: the loop builds a `BankAccount` from it and an
`AccountTransaction` of state COMPLETED, description "Initial deposit",
amount equal to the account's balance, and `account_id` the account's id. -/
structure FakeAccount where
  id : Nat
  name : String
  account_number : String
  state : BankAccountStateType
  balance : Int
  timestamp : Nat
deriving DecidableEq, Repr

/-- The `BankAccount` row one `reset_accounts` loop iteration inserts. -/
def FakeAccount.toAccount (f : FakeAccount) : BankAccount :=
  { id := f.id
    name := f.name
    account_number := f.account_number
    state := f.state
    balance := f.balance }

/-- The "Initial deposit" `AccountTransaction` row one `reset_accounts`
loop iteration inserts (its own `id` is a fresh `uuid4`, modelled as an
arbitrary fixed tag derived from the account id). -/
def FakeAccount.toTransaction (f : FakeAccount) : AccountTransaction :=
  { id := f.id
    account_id := f.id
    amount := f.balance
    state := AccountTransactionStateType.completed
    annotations := []
    description := "Initial deposit"
    timestamp := f.timestamp }

/-- The first session of `reset_accounts`: delete every `BankAccount` row
and every `AccountTransaction` row, then commit once. -/
def reset_clear (_db : LedgerStore) : LedgerStore :=
  { accounts := [], transactions := [] }

/-- One iteration of the `reset_accounts` generation loop: a fresh session
adds the fake account and its initial-deposit transaction and commits. -/
def reset_insert (db : LedgerStore) (f : FakeAccount) : LedgerStore :=
  { accounts := db.accounts ++ [f.toAccount]
    transactions := db.transactions ++ [f.toTransaction] }

/-- `reset_accounts`: clear both tables in one committed session, then add
one fake account (with its initial deposit) per loop iteration, each in its
own committed session.  The fake data, freshly generated in the source, is
passed in as `fakes`. -/
def reset_accounts (db : LedgerStore) (fakes : List FakeAccount) : LedgerStore :=
  fakes.foldl reset_insert (reset_clear db)

/-- The states visible after each commit of the `reset_accounts` generation
loop, starting the loop from store `db`. -/
def insert_commits (db : LedgerStore) (fakes : List FakeAccount) : List LedgerStore :=
  match fakes with
  | [] => []
  | f :: fs => reset_insert db f :: insert_commits (reset_insert db f) fs

/-- The sequence of states visible at commit boundaries while
`reset_accounts` runs: one state after the clearing commit, then one after
each fake-account commit. -/
def reset_commits (db : LedgerStore) (fakes : List FakeAccount) : List LedgerStore :=
  reset_clear db :: insert_commits (reset_clear db) fakes

/-- The store an operation leaves behind: the new store on success, the
untouched input store when the session raised before its commit. -/
def runState (db : LedgerStore) (r : Except DBError LedgerStore) : LedgerStore :=
  match r with
  | .ok db' => db'
  | .error _ => db

/-- Referential integrity: every transaction's `account_id` is the `id` of
some existing account. -/
def FKInv (db : LedgerStore) : Prop :=
  ∀ t ∈ db.transactions, ∃ a ∈ db.accounts, a.id = t.account_id

/-! ## Balance Calculator -/

theorem foldl_skip_canceled (l : List AccountTransaction) (b : Int) :
    l.foldl (fun balance t =>
        if t.state == AccountTransactionStateType.canceled then balance
        else balance + t.amount) b
      = b + ((l.filter (fun t =>
          !(t.state == AccountTransactionStateType.canceled))).map
            (·.amount)).sum := by
  induction l generalizing b with
  | nil => simp
  | cons t ts ih =>
    rw [List.foldl_cons, List.filter_cons]
    cases hb : (t.state == AccountTransactionStateType.canceled) with
    | true =>
      rw [if_pos rfl, if_neg (by simp)]
      exact ih b
    | false =>
      rw [if_neg (by simp), if_pos (by simp), ih (b + t.amount),
        List.map_cons, List.sum_cons]
      ring

/-- C1: for every account, `calculate_balance` returns exactly the sum of
`amount` over the transactions whose `account_id` equals the account's id
and whose state is not CANCELED (so PENDING ones are included, and an
account with no qualifying transactions gets zero, the empty sum). -/
theorem calculate_balance_eq_sum (self : BankAccount) (db : LedgerStore) :
    self.calculate_balance db =
      ((db.transactions.filter (fun t =>
          t.account_id == self.id &&
          !(t.state == AccountTransactionStateType.canceled))).map
        (·.amount)).sum := by
  unfold BankAccount.calculate_balance
  rw [foldl_skip_canceled, List.filter_filter, zero_add]
  have hf : db.transactions.filter (fun a =>
        !(a.state == AccountTransactionStateType.canceled) &&
          (a.account_id == self.id))
      = db.transactions.filter (fun t =>
          (t.account_id == self.id) &&
          !(t.state == AccountTransactionStateType.canceled)) :=
    List.filter_congr (fun t _ => Bool.and_comm _ _)
  rw [hf]

/-! ## Concrete scenario (C6) -/

def demo_account : BankAccount :=
  { id := 1
    name := "Alice"
    account_number := "1000000000000001"
    state := BankAccountStateType.active
    balance := 0 }

def demo_db0 : LedgerStore := { accounts := [demo_account], transactions := [] }

def demo_step1 : Except DBError LedgerStore :=
  create_or_update_transaction demo_db0 11 "1000000000000001"
    AccountTransactionStateType.completed "Initial deposit" [] 100000 1

def demo_db1 : LedgerStore := runState demo_db0 demo_step1

def demo_step2 : Except DBError LedgerStore :=
  create_or_update_transaction demo_db1 11 "1000000000000001"
    AccountTransactionStateType.canceled "Initial deposit" [] 100000 2

def demo_db2 : LedgerStore := runState demo_db1 demo_step2

def demo_step3 : Except DBError LedgerStore :=
  create_or_update_transaction demo_db2 12 "1000000000000001"
    AccountTransactionStateType.completed "Deposit" [] 25050 3

def demo_db3 : LedgerStore := runState demo_db2 demo_step3

/-- C6: on account "1000000000000001" (balance 0, ACTIVE): an initial
deposit upsert (COMPLETED, 1000.00 = 100000 cents) makes the calculated
balance 1000.00; a second upsert with the same transaction id and state
CANCELED makes it 0.00; a third upsert with a new id (COMPLETED,
250.50 = 25050 cents) makes it 250.50. -/
theorem demo_scenario_balances :
    demo_step1 = Except.ok demo_db1
      ∧ demo_account.calculate_balance demo_db1 = 100000
      ∧ demo_step2 = Except.ok demo_db2
      ∧ demo_account.calculate_balance demo_db2 = 0
      ∧ demo_step3 = Except.ok demo_db3
      ∧ demo_account.calculate_balance demo_db3 = 25050 :=
  ⟨rfl, by decide, rfl, by decide, rfl, by decide⟩

/-! ## Resolution by account number -/

theorem execOne_ok_iff (l : List α) (a : α) : execOne l = .ok a ↔ l = [a] := by
  cases l with
  | nil => simp [execOne]
  | cons x xs =>
    cases xs with
    | nil => simp [execOne]
    | cons y ys => simp [execOne]

theorem length_filter_number_le_one (l : List BankAccount) (n : String)
    (h : l.Pairwise (fun a b => a.account_number ≠ b.account_number)) :
    (l.filter (fun a => a.account_number == n)).length ≤ 1 := by
  induction l with
  | nil => simp
  | cons a l ih =>
    rcases List.pairwise_cons.mp h with ⟨ha, hl⟩
    rw [List.filter_cons]
    cases hb : (a.account_number == n) with
    | false => simpa using ih hl
    | true =>
      rw [if_pos rfl]
      have hnil : l.filter (fun x => x.account_number == n) = [] := by
        rw [List.filter_eq_nil_iff]
        intro x hx hxn
        exact ha x hx (by rw [beq_iff_eq.mp hb, ← beq_iff_eq.mp hxn])
      simp [hnil]

/-- C5: under the store's uniqueness constraint on `account_number`, an
`account_number` that does not resolve to exactly one account yields
`NotFound` from Transaction Upsert, and the store — in particular the
transaction table — is left unchanged. -/
theorem upsert_notFound_of_unresolvable (db : LedgerStore) (tid : Nat)
    (n : String) (st : AccountTransactionStateType) (desc : String)
    (ann : List Annotation) (amt : Int) (now : Nat)
    (huniq : db.accounts.Pairwise (fun a b => a.account_number ≠ b.account_number))
    (hres : (db.accounts.filter (fun a => a.account_number == n)).length ≠ 1) :
    create_or_update_transaction db tid n st desc ann amt now
        = .error .notFound
      ∧ runState db (create_or_update_transaction db tid n st desc ann amt now)
        = db := by
  have hle := length_filter_number_le_one db.accounts n huniq
  have hnil : db.accounts.filter (fun a => a.account_number == n) = [] := by
    rw [← List.length_eq_zero]
    omega
  have hmain : create_or_update_transaction db tid n st desc ann amt now
      = .error .notFound := by
    unfold create_or_update_transaction
    rw [hnil]
    rfl
  exact ⟨hmain, by rw [hmain]; rfl⟩

theorem upsert_notFound_of_unresolvable_witness :
    ((demo_db0.accounts.filter (fun a => a.account_number == "9999")).length ≠ 1)
      ∧ create_or_update_transaction demo_db0 99 "9999"
          AccountTransactionStateType.completed "d" [] 100 0
          = .error .notFound
      ∧ runState demo_db0 (create_or_update_transaction demo_db0 99 "9999"
          AccountTransactionStateType.completed "d" [] 100 0)
        = demo_db0 :=
  ⟨by decide,
   upsert_notFound_of_unresolvable demo_db0 99 "9999"
     AccountTransactionStateType.completed "d" [] 100 0
     (by simp [demo_db0]) (by decide)⟩

/-! ## Balance Calculator has no existence check (C7) -/

def ghost_account : BankAccount :=
  { id := 42
    name := "Ghost"
    account_number := "0000000000000000"
    state := BankAccountStateType.active
    balance := 7 }

/-- C7 counterexample: `calculate_balance` is a total function of the
account object and the store — it has no failure path at all.  For an
account that exists nowhere in the store it returns the value `0` (the sum
over the empty selection) instead of failing with NotFound. -/
theorem calculate_balance_missing_account_counterexample :
    (∀ a ∈ demo_db0.accounts, a.id ≠ ghost_account.id)
      ∧ ghost_account.calculate_balance demo_db0 = 0 := by
  decide

/-- C7 amended: the Balance Calculator performs no store-existence check
and never fails; for an account no transaction refers to — in particular an
account absent from the store, given referential integrity — it returns the
full (empty) sum `0`, not a partial one. -/
theorem calculate_balance_missing_account (a : BankAccount) (db : LedgerStore)
    (hmiss : ∀ t ∈ db.transactions, t.account_id ≠ a.id) :
    a.calculate_balance db = 0 := by
  unfold BankAccount.calculate_balance
  have hnil : db.transactions.filter (fun t => t.account_id == a.id) = [] := by
    rw [List.filter_eq_nil_iff]
    intro t ht htid
    exact hmiss t ht (beq_iff_eq.mp htid)
  rw [hnil]
  rfl

theorem calculate_balance_missing_account_witness :
    (∀ t ∈ demo_db0.transactions, t.account_id ≠ ghost_account.id)
      ∧ ghost_account.calculate_balance demo_db0 = 0 :=
  ⟨by decide,
   calculate_balance_missing_account ghost_account demo_db0 (by decide)⟩

/-! ## Reset atomicity (C9) -/

theorem insert_commits_nonempty (fakes : List FakeAccount) :
    ∀ db : LedgerStore, ∀ s ∈ insert_commits db fakes,
      s.accounts ≠ [] ∧ s.transactions ≠ [] := by
  induction fakes with
  | nil => intro db s hs; simp [insert_commits] at hs
  | cons f fs ih =>
    intro db s hs
    rw [insert_commits, List.mem_cons] at hs
    rcases hs with rfl | hs
    · exact ⟨by simp [reset_insert], by simp [reset_insert]⟩
    · exact ih (reset_insert db f) s hs

/-- C9: the ledger reset clears accounts and transactions together in its
single clearing commit: the first state visible after reset starts has both
collections empty, and in no commit-visible state of the whole reset is one
collection empty while the other is not. -/
theorem reset_clears_both_atomically (db : LedgerStore) (fakes : List FakeAccount) :
    (reset_commits db fakes).head?
        = some { accounts := [], transactions := [] }
      ∧ ∀ s ∈ reset_commits db fakes, (s.accounts = [] ↔ s.transactions = []) := by
  constructor
  · rfl
  · intro s hs
    rw [reset_commits, List.mem_cons] at hs
    rcases hs with rfl | hs
    · simp [reset_clear]
    · rcases insert_commits_nonempty fakes (reset_clear db) s hs with ⟨h1, h2⟩
      constructor
      · intro h; exact absurd h h1
      · intro h; exact absurd h h2

/-! ## Account Balance Refresh (C3, C10) -/

theorem calculate_balance_congr (a b : BankAccount) (db1 db2 : LedgerStore)
    (hid : a.id = b.id) (htx : db1.transactions = db2.transactions) :
    a.calculate_balance db1 = b.calculate_balance db2 := by
  unfold BankAccount.calculate_balance
  rw [hid, htx]

theorem update_balance_ok_iff (db : LedgerStore) (n : String) (db' : LedgerStore) :
    update_balance db n = .ok db' ↔
      ∃ ba, db.accounts.filter (fun a => a.account_number == n) = [ba]
        ∧ db' = { db with accounts := db.accounts.map (fun a =>
            if a.id == ba.id then { a with balance := ba.calculate_balance db }
            else a) } := by
  cases hE : execOne (db.accounts.filter (fun a => a.account_number == n)) with
  | error e =>
    have hu : update_balance db n = .error e := by
      unfold update_balance; rw [hE]
    rw [hu]
    constructor
    · intro h; simp at h
    · rintro ⟨ba, hba, _⟩
      rw [hba] at hE
      simp [execOne] at hE
  | ok ba =>
    have hu : update_balance db n
        = .ok { db with accounts := db.accounts.map (fun a =>
            if a.id == ba.id then { a with balance := ba.calculate_balance db }
            else a) } := by
      unfold update_balance; rw [hE]
    rw [hu]
    have hfil := (execOne_ok_iff _ _).mp hE
    constructor
    · intro h
      exact ⟨ba, hfil, (Except.ok.inj h).symm⟩
    · rintro ⟨ba', hba', rfl⟩
      have hbb : ba = ba' := by
        rw [hfil] at hba'
        injection hba'
      rw [hbb]

/-- C3: after a successful Account Balance Refresh for `account_number`,
the transaction set is untouched and the refreshed account's stored
`balance` field equals the Balance Calculator's result over the current
transaction set. -/
theorem update_balance_refreshes_cached (db : LedgerStore) (n : String)
    (db' : LedgerStore) (hok : update_balance db n = .ok db') :
    db'.transactions = db.transactions
      ∧ ∃ a' ∈ db'.accounts, a'.account_number = n
          ∧ a'.balance = a'.calculate_balance db' := by
  rcases (update_balance_ok_iff db n db').mp hok with ⟨ba, hba, rfl⟩
  have hbain : ba ∈ db.accounts.filter (fun a => a.account_number == n) := by
    rw [hba]; exact List.mem_singleton.mpr rfl
  have hmem : ba ∈ db.accounts := List.mem_of_mem_filter hbain
  have ban : ba.account_number = n := beq_iff_eq.mp (List.mem_filter.mp hbain).2
  refine ⟨rfl, { ba with balance := ba.calculate_balance db }, ?_, ban, ?_⟩
  · have := List.mem_map_of_mem (fun a =>
      if a.id == ba.id then { a with balance := ba.calculate_balance db } else a)
      hmem
    simpa using this
  · exact calculate_balance_congr ba _ db _ rfl rfl

def refresh_step : Except DBError LedgerStore :=
  create_or_update_transaction demo_db0 21 "1000000000000001"
    AccountTransactionStateType.completed "Deposit" [] 5000 4

def refresh_db1 : LedgerStore := runState demo_db0 refresh_step

def refresh_db2 : LedgerStore :=
  runState refresh_db1 (update_balance refresh_db1 "1000000000000001")

theorem update_balance_refreshes_cached_witness :
    demo_account.calculate_balance demo_db0 = 0
      ∧ refresh_step = Except.ok refresh_db1
      ∧ update_balance refresh_db1 "1000000000000001" = Except.ok refresh_db2
      ∧ (refresh_db2.transactions = refresh_db1.transactions
          ∧ ∃ a' ∈ refresh_db2.accounts, a'.account_number = "1000000000000001"
              ∧ a'.balance = a'.calculate_balance refresh_db2)
      ∧ (∀ a ∈ refresh_db2.accounts, a.balance = 5000) :=
  ⟨by decide, rfl, rfl,
   update_balance_refreshes_cached refresh_db1 "1000000000000001" refresh_db2 rfl,
   by decide⟩

/-- C10: a successful Account Balance Refresh changes no transaction row,
keeps every account's `id`, `name`, `account_number` and `state`, and
leaves every account other than the resolved one completely unchanged. -/
theorem update_balance_frame (db : LedgerStore) (n : String) (db' : LedgerStore)
    (hids : (db.accounts.map (fun a => a.id)).Nodup)
    (hok : update_balance db n = .ok db') :
    db'.transactions = db.transactions
      ∧ List.Forall₂ (fun a a' =>
          a'.id = a.id ∧ a'.name = a.name
            ∧ a'.account_number = a.account_number ∧ a'.state = a.state
            ∧ (a.account_number ≠ n → a' = a)) db.accounts db'.accounts := by
  rcases (update_balance_ok_iff db n db').mp hok with ⟨ba, hba, rfl⟩
  have hbain : ba ∈ db.accounts.filter (fun a => a.account_number == n) := by
    rw [hba]; exact List.mem_singleton.mpr rfl
  have hmem : ba ∈ db.accounts := List.mem_of_mem_filter hbain
  have ban : ba.account_number = n := beq_iff_eq.mp (List.mem_filter.mp hbain).2
  refine ⟨rfl, ?_⟩
  rw [List.forall₂_map_right_iff, List.forall₂_same]
  intro a ha
  by_cases hid : (a.id == ba.id) = true
  · rw [if_pos hid]
    refine ⟨rfl, rfl, rfl, rfl, fun hne => absurd ?_ hne⟩
    have hab : a = ba :=
      List.inj_on_of_nodup_map hids ha hmem (beq_iff_eq.mp hid)
    rw [hab, ban]
  · rw [if_neg hid]
    exact ⟨rfl, rfl, rfl, rfl, fun _ => rfl⟩

theorem update_balance_frame_witness :
    ((refresh_db1.accounts.map (fun a => a.id)).Nodup)
      ∧ (refresh_db2.transactions = refresh_db1.transactions
          ∧ List.Forall₂ (fun a a' =>
              a'.id = a.id ∧ a'.name = a.name
                ∧ a'.account_number = a.account_number ∧ a'.state = a.state
                ∧ (a.account_number ≠ "1000000000000001" → a' = a))
            refresh_db1.accounts refresh_db2.accounts) :=
  ⟨by decide,
   update_balance_frame refresh_db1 "1000000000000001" refresh_db2 (by decide) rfl⟩

/-! ## Transaction Upsert: branch equations and case analysis -/

/-- The transaction row an update-branch upsert writes over `tx0`. -/
def updatedTx (tx0 : AccountTransaction) (st : AccountTransactionStateType)
    (desc : String) (ann : List Annotation) (amt : Int) (now : Nat) :
    AccountTransaction :=
  { tx0 with
    amount := amt
    state := st
    annotations := tx0.annotations ++ ann
    description := desc
    timestamp := now }

/-- The fresh transaction row an insert-branch upsert writes. -/
def insertedTx (tid : Nat) (account_id : Nat)
    (st : AccountTransactionStateType) (desc : String)
    (ann : List Annotation) (amt : Int) (now : Nat) : AccountTransaction :=
  { id := tid
    account_id := account_id
    amount := amt
    state := st
    annotations := ann
    description := desc
    timestamp := now }

theorem upsert_resolved_eq (db : LedgerStore) (tid : Nat) (n : String)
    (ba : BankAccount) (st : AccountTransactionStateType) (desc : String)
    (ann : List Annotation) (amt : Int) (now : Nat)
    (hres : db.accounts.filter (fun a => a.account_number == n) = [ba]) :
    create_or_update_transaction db tid n st desc ann amt now
      = match (db.transactions.filter (fun t =>
            t.account_id == ba.id && t.id == tid)).head? with
        | some tx0 =>
          Except.ok { db with transactions := db.transactions.map (fun t =>
            if t.id == tx0.id then updatedTx tx0 st desc ann amt now else t) }
        | none =>
          if db.transactions.any (fun t => t.id == tid) then
            Except.error DBError.integrityError
          else
            Except.ok { db with transactions :=
              db.transactions ++ [insertedTx tid ba.id st desc ann amt now] } := by
  unfold create_or_update_transaction
  rw [hres]
  rfl

theorem upsert_update_eq (db : LedgerStore) (tid : Nat) (n : String)
    (ba : BankAccount) (tx0 : AccountTransaction)
    (st : AccountTransactionStateType) (desc : String) (ann : List Annotation)
    (amt : Int) (now : Nat)
    (hres : db.accounts.filter (fun a => a.account_number == n) = [ba])
    (hhead : (db.transactions.filter (fun t =>
        t.account_id == ba.id && t.id == tid)).head? = some tx0) :
    create_or_update_transaction db tid n st desc ann amt now
      = .ok { db with transactions := db.transactions.map (fun t =>
          if t.id == tx0.id then updatedTx tx0 st desc ann amt now else t) } := by
  rw [upsert_resolved_eq db tid n ba st desc ann amt now hres, hhead]

theorem upsert_insert_eq (db : LedgerStore) (tid : Nat) (n : String)
    (ba : BankAccount) (st : AccountTransactionStateType) (desc : String)
    (ann : List Annotation) (amt : Int) (now : Nat)
    (hres : db.accounts.filter (fun a => a.account_number == n) = [ba])
    (hhead : (db.transactions.filter (fun t =>
        t.account_id == ba.id && t.id == tid)).head? = none)
    (hany : db.transactions.any (fun t => t.id == tid) = false) :
    create_or_update_transaction db tid n st desc ann amt now
      = .ok { db with transactions :=
          db.transactions ++ [insertedTx tid ba.id st desc ann amt now] } := by
  rw [upsert_resolved_eq db tid n ba st desc ann amt now hres, hhead, hany]
  rfl

theorem upsert_ok_cases (db : LedgerStore) (tid : Nat) (n : String)
    (st : AccountTransactionStateType) (desc : String) (ann : List Annotation)
    (amt : Int) (now : Nat) (db' : LedgerStore)
    (hok : create_or_update_transaction db tid n st desc ann amt now = .ok db') :
    ∃ ba, db.accounts.filter (fun a => a.account_number == n) = [ba]
      ∧ ((∃ tx0, (db.transactions.filter (fun t =>
              t.account_id == ba.id && t.id == tid)).head? = some tx0
            ∧ db' = { db with transactions := db.transactions.map (fun t =>
                if t.id == tx0.id then updatedTx tx0 st desc ann amt now
                else t) })
        ∨ ((db.transactions.filter (fun t =>
              t.account_id == ba.id && t.id == tid)).head? = none
            ∧ db.transactions.any (fun t => t.id == tid) = false
            ∧ db' = { db with transactions :=
                db.transactions ++ [insertedTx tid ba.id st desc ann amt now] })) := by
  cases hE : execOne (db.accounts.filter (fun a => a.account_number == n)) with
  | error e =>
    have hu : create_or_update_transaction db tid n st desc ann amt now
        = .error e := by
      unfold create_or_update_transaction; rw [hE]
    rw [hu] at hok
    simp at hok
  | ok ba =>
    have hres := (execOne_ok_iff _ _).mp hE
    refine ⟨ba, hres, ?_⟩
    cases hH : (db.transactions.filter (fun t =>
        t.account_id == ba.id && t.id == tid)).head? with
    | some tx0 =>
      left
      refine ⟨tx0, rfl, ?_⟩
      rw [upsert_update_eq db tid n ba tx0 st desc ann amt now hres hH] at hok
      exact (Except.ok.inj hok).symm
    | none =>
      right
      cases hA : db.transactions.any (fun t => t.id == tid) with
      | true =>
        have hu : create_or_update_transaction db tid n st desc ann amt now
            = .error .integrityError := by
          rw [upsert_resolved_eq db tid n ba st desc ann amt now hres, hH, hA]
          rfl
        rw [hu] at hok
        simp at hok
      | false =>
        rw [upsert_insert_eq db tid n ba st desc ann amt now hres hH hA] at hok
        exact ⟨rfl, rfl, (Except.ok.inj hok).symm⟩

/-! ## Referential integrity (C8) -/

theorem fkinv_foldl_insert (fakes : List FakeAccount) :
    ∀ db : LedgerStore, FKInv db → FKInv (fakes.foldl reset_insert db) := by
  induction fakes with
  | nil => intro db h; exact h
  | cons f fs ih =>
    intro db h
    rw [List.foldl_cons]
    apply ih
    intro t ht
    rcases List.mem_append.mp ht with h1 | h2
    · rcases h t h1 with ⟨a, ha, haid⟩
      exact ⟨a, List.mem_append.mpr (Or.inl ha), haid⟩
    · exact ⟨f.toAccount,
        List.mem_append.mpr (Or.inr (List.mem_singleton.mpr rfl)),
        by rw [List.mem_singleton.mp h2]; rfl⟩

/-- C8: the referential-integrity invariant — every transaction's
`account_id` is the id of an existing account — is preserved: a successful
Transaction Upsert only writes transaction rows whose `account_id` is the
resolved account's id (updates keep the stored `account_id`), and the
ledger reset clears both tables together and inserts each fake account
together with its initial-deposit transaction, so it establishes the
invariant from any starting store. -/
theorem upsert_reset_preserve_fk (db db' : LedgerStore) (tid : Nat)
    (n : String) (st : AccountTransactionStateType) (desc : String)
    (ann : List Annotation) (amt : Int) (now : Nat)
    (fakes : List FakeAccount) (hinv : FKInv db)
    (hok : create_or_update_transaction db tid n st desc ann amt now = .ok db') :
    FKInv db' ∧ FKInv (reset_accounts db fakes) := by
  constructor
  · rcases upsert_ok_cases db tid n st desc ann amt now db' hok with
      ⟨ba, hres, hcase⟩
    have hmem_ba : ba ∈ db.accounts := by
      have : ba ∈ db.accounts.filter (fun a => a.account_number == n) := by
        rw [hres]; exact List.mem_singleton.mpr rfl
      exact List.mem_of_mem_filter this
    rcases hcase with ⟨tx0, hhead, rfl⟩ | ⟨hhead, hany, rfl⟩
    · intro t' ht'
      rcases List.mem_map.mp ht' with ⟨t, htl, rfl⟩
      by_cases hidt : (t.id == tx0.id) = true
      · rw [if_pos hidt]
        have htx0 : tx0 ∈ db.transactions :=
          List.mem_of_mem_filter (List.mem_of_mem_head? hhead)
        rcases hinv tx0 htx0 with ⟨a, ha, haid⟩
        exact ⟨a, ha, haid⟩
      · rw [if_neg hidt]
        exact hinv t htl
    · intro t' ht'
      rcases List.mem_append.mp ht' with h1 | h2
      · exact hinv t' h1
      · exact ⟨ba, hmem_ba, by rw [List.mem_singleton.mp h2]; rfl⟩
  · apply fkinv_foldl_insert
    intro t ht
    simp [reset_clear] at ht

def fake_sample : FakeAccount :=
  { id := 5
    name := "F"
    account_number := "5000000000000005"
    state := BankAccountStateType.active
    balance := 100
    timestamp := 9 }

theorem upsert_reset_preserve_fk_witness :
    FKInv demo_db0 ∧ (FKInv demo_db1 ∧ FKInv (reset_accounts demo_db0 [fake_sample])) :=
  ⟨fun t ht => absurd ht (by simp [demo_db0]),
   upsert_reset_preserve_fk demo_db0 demo_db1 11 "1000000000000001"
     AccountTransactionStateType.completed "Initial deposit" [] 100000 1
     [fake_sample]
     (fun t ht => absurd ht (by simp [demo_db0])) rfl⟩

/-! ## Transaction Upsert: creation (C4) -/

def other_account : BankAccount :=
  { id := 2
    name := "Bob"
    account_number := "2000000000000002"
    state := BankAccountStateType.active
    balance := 0 }

def cx_tx : AccountTransaction :=
  { id := 7
    account_id := 1
    amount := 100
    state := AccountTransactionStateType.completed
    annotations := []
    description := "d"
    timestamp := 0 }

def cx_db : LedgerStore :=
  { accounts := [demo_account, other_account], transactions := [cx_tx] }

/-- C4 counterexample: account "2000000000000002" is resolvable and
transaction id 7 does not exist under it, yet the upsert creates nothing —
id 7 already exists under the other account, so the insert violates the
primary-key constraint and the commit fails with `IntegrityError`. -/
theorem upsert_creates_counterexample :
    (∀ t ∈ cx_db.transactions, ¬(t.account_id = other_account.id ∧ t.id = 7))
      ∧ cx_db.accounts.filter (fun a => a.account_number == "2000000000000002")
          = [other_account]
      ∧ create_or_update_transaction cx_db 7 "2000000000000002"
          AccountTransactionStateType.completed "d" [] 100 1
        = .error .integrityError := by
  decide

/-- C4 amended: for a resolvable `account_number` and a transaction id that
does not already exist under **any** account (transaction ids are global
primary keys), Transaction Upsert appends exactly one new row carrying the
caller-supplied id, the resolved account's id, the given state,
description, amount, the given annotations, and the supplied timestamp —
and that row is what the source's (account, id) lookup then retrieves. -/
theorem upsert_creates_when_fresh (db : LedgerStore) (tid : Nat) (n : String)
    (ba : BankAccount) (st : AccountTransactionStateType) (desc : String)
    (ann : List Annotation) (amt : Int) (now : Nat)
    (hres : db.accounts.filter (fun a => a.account_number == n) = [ba])
    (hfresh : ∀ t ∈ db.transactions, t.id ≠ tid) :
    create_or_update_transaction db tid n st desc ann amt now
        = .ok { db with transactions :=
            db.transactions ++ [insertedTx tid ba.id st desc ann amt now] }
      ∧ ((db.transactions ++ [insertedTx tid ba.id st desc ann amt now]).filter
            (fun t => t.account_id == ba.id && t.id == tid)).head?
          = some (insertedTx tid ba.id st desc ann amt now) := by
  have hnil : db.transactions.filter
      (fun t => t.account_id == ba.id && t.id == tid) = [] := by
    rw [List.filter_eq_nil_iff]
    intro t ht hcond
    rw [Bool.and_eq_true] at hcond
    exact hfresh t ht (beq_iff_eq.mp hcond.2)
  have hhead : (db.transactions.filter
      (fun t => t.account_id == ba.id && t.id == tid)).head? = none := by
    rw [hnil]; rfl
  have hany : db.transactions.any (fun t => t.id == tid) = false := by
    rw [List.any_eq_false]
    intro t ht htid
    exact hfresh t ht (beq_iff_eq.mp htid)
  refine ⟨upsert_insert_eq db tid n ba st desc ann amt now hres hhead hany, ?_⟩
  rw [List.filter_append, hnil, List.nil_append]
  simp [insertedTx]

def c4_db1 : LedgerStore :=
  { demo_db0 with transactions := demo_db0.transactions ++
      [insertedTx 31 demo_account.id AccountTransactionStateType.completed
        "d" [] 100 5] }

theorem upsert_creates_when_fresh_witness :
    (demo_db0.accounts.filter
        (fun a => a.account_number == "1000000000000001") = [demo_account])
      ∧ (∀ t ∈ demo_db0.transactions, t.id ≠ 31)
      ∧ (create_or_update_transaction demo_db0 31 "1000000000000001"
            AccountTransactionStateType.completed "d" [] 100 5
          = .ok c4_db1
        ∧ (c4_db1.transactions.filter
              (fun t => t.account_id == demo_account.id && t.id == 31)).head?
            = some (insertedTx 31 demo_account.id
                AccountTransactionStateType.completed "d" [] 100 5)) :=
  ⟨by decide, by decide,
   upsert_creates_when_fresh demo_db0 31 "1000000000000001" demo_account
     AccountTransactionStateType.completed "d" [] 100 5
     (by decide) (by decide)⟩

/-! ## Transaction Upsert: repeated upsert on one id (C2) -/

theorem filter_pair_of_filter_id (l : List AccountTransaction) (c i : Nat)
    (tx0 : AccountTransaction)
    (h : l.filter (fun t => t.id == i) = [tx0]) (ha : tx0.account_id = c) :
    l.filter (fun t => t.account_id == c && t.id == i) = [tx0] := by
  rw [← List.filter_filter, h, List.filter_cons]
  simp [ha]

theorem filter_id_map_update (l : List AccountTransaction) (i : Nat)
    (tx0 c : AccountTransaction)
    (h : l.filter (fun t => t.id == i) = [tx0])
    (hti : tx0.id = i) (hci : c.id = i) :
    (l.map (fun t => if t.id == tx0.id then c else t)).filter
        (fun t => t.id == i) = [c] := by
  induction l with
  | nil => simp at h
  | cons t ts ih =>
    rw [List.filter_cons] at h
    rw [List.map_cons, List.filter_cons]
    cases hb : (t.id == i) with
    | true =>
      rw [if_pos hb] at h
      injection h with h1 h2
      have hft : (if (t.id == tx0.id) = true then c else t) = c := by
        rw [h1]; simp
      rw [hft, if_pos (beq_iff_eq.mpr hci)]
      have hrest : (ts.map (fun t => if t.id == tx0.id then c else t)).filter
          (fun t => t.id == i) = [] := by
        rw [List.filter_eq_nil_iff]
        intro x hx hpx
        rcases List.mem_map.mp hx with ⟨y, hy, rfl⟩
        have hyne : ¬(y.id == i) = true := (List.filter_eq_nil_iff.mp h2) y hy
        by_cases hyc : (y.id == tx0.id) = true
        · exact absurd (beq_iff_eq.mpr (by rw [beq_iff_eq.mp hyc, hti])) hyne
        · rw [if_neg hyc] at hpx
          exact hyne hpx
      rw [hrest]
    | false =>
      rw [if_neg (by rw [hb]; exact Bool.false_ne_true)] at h
      have hft : (if (t.id == tx0.id) = true then c else t) = t := by
        rw [if_neg]
        intro hc
        have : (t.id == i) = true := beq_iff_eq.mpr (by rw [beq_iff_eq.mp hc, hti])
        rw [hb] at this
        exact Bool.false_ne_true this
      rw [hft, if_neg (by rw [hb]; exact Bool.false_ne_true)]
      exact ih h

def c2_tx : AccountTransaction :=
  { id := 11
    account_id := 1
    amount := 100
    state := AccountTransactionStateType.completed
    annotations := [[("k", "v")]]
    description := "d"
    timestamp := 0 }

def c2_db : LedgerStore :=
  { accounts := [demo_account], transactions := [c2_tx] }

def c2_step1 : Except DBError LedgerStore :=
  create_or_update_transaction c2_db 11 "1000000000000001"
    AccountTransactionStateType.completed "d" [] 100 1

def c2_db1 : LedgerStore := runState c2_db c2_step1

def c2_step2 : Except DBError LedgerStore :=
  create_or_update_transaction c2_db1 11 "1000000000000001"
    AccountTransactionStateType.completed "d" [] 100 2

def c2_db2 : LedgerStore := runState c2_db1 c2_step2

/-- C2 counterexample: transaction 11 already exists under the account with
a nonempty annotation list; upserting twice with annotation lists A = []
and B = [] leaves one row whose annotations are the pre-existing ones, not
A ++ B = []. -/
theorem upsert_twice_counterexample :
    c2_db.accounts.filter (fun a => a.account_number == "1000000000000001")
        = [demo_account]
      ∧ c2_db.transactions.filter (fun t => t.id == 11) = [c2_tx]
      ∧ c2_tx.account_id = demo_account.id
      ∧ c2_step1 = Except.ok c2_db1
      ∧ c2_step2 = Except.ok c2_db2
      ∧ c2_db2.transactions.filter (fun t => t.id == 11)
          = [{ c2_tx with timestamp := 2 }]
      ∧ ({ c2_tx with timestamp := 2 } : AccountTransaction).annotations
          ≠ ([] : List Annotation) ++ ([] : List Annotation) := by
  decide

/-- C2 amended: for an account resolvable by `account_number` and a
transaction id with exactly one existing row `tx0` under that account,
upserting twice with the same id, account_number, state, description and
amount, with annotation lists A then B, leaves exactly one row with that
id, whose annotations are the **pre-existing annotations of `tx0`**
followed by A followed by B (concatenated, never replaced or
deduplicated), and whose amount, state, description and timestamp come
from the second call. -/
theorem upsert_twice_appends (db : LedgerStore) (tid : Nat) (n : String)
    (ba : BankAccount) (tx0 : AccountTransaction)
    (st : AccountTransactionStateType) (desc : String)
    (A B : List Annotation) (amt : Int) (now1 now2 : Nat)
    (hres : db.accounts.filter (fun a => a.account_number == n) = [ba])
    (htx : db.transactions.filter (fun t => t.id == tid) = [tx0])
    (hown : tx0.account_id = ba.id) :
    ∃ db1 db2,
      create_or_update_transaction db tid n st desc A amt now1 = .ok db1
        ∧ create_or_update_transaction db1 tid n st desc B amt now2 = .ok db2
        ∧ db2.transactions.filter (fun t => t.id == tid)
            = [{ tx0 with
                 amount := amt
                 state := st
                 annotations := tx0.annotations ++ A ++ B
                 description := desc
                 timestamp := now2 }] := by
  have hti : tx0.id = tid := by
    have : tx0 ∈ db.transactions.filter (fun t => t.id == tid) := by
      rw [htx]; exact List.mem_singleton.mpr rfl
    exact beq_iff_eq.mp (List.mem_filter.mp this).2
  have hhead1 : (db.transactions.filter (fun t =>
      t.account_id == ba.id && t.id == tid)).head? = some tx0 := by
    rw [filter_pair_of_filter_id db.transactions ba.id tid tx0 htx hown]; rfl
  have h1 := upsert_update_eq db tid n ba tx0 st desc A amt now1 hres hhead1
  have hupd1id : (updatedTx tx0 st desc A amt now1).id = tid := hti
  have hupd1acc : (updatedTx tx0 st desc A amt now1).account_id = ba.id := hown
  have hfil1 : ((db.transactions.map (fun t =>
      if t.id == tx0.id then updatedTx tx0 st desc A amt now1 else t)).filter
        (fun t => t.id == tid)) = [updatedTx tx0 st desc A amt now1] :=
    filter_id_map_update db.transactions tid tx0
      (updatedTx tx0 st desc A amt now1) htx hti hupd1id
  have hhead2 : (((db.transactions.map (fun t =>
      if t.id == tx0.id then updatedTx tx0 st desc A amt now1 else t))).filter
        (fun t => t.account_id == ba.id && t.id == tid)).head?
      = some (updatedTx tx0 st desc A amt now1) := by
    rw [filter_pair_of_filter_id _ ba.id tid _ hfil1 hupd1acc]; rfl
  have h2 := upsert_update_eq
    { db with transactions := db.transactions.map (fun t =>
        if t.id == tx0.id then updatedTx tx0 st desc A amt now1 else t) }
    tid n ba (updatedTx tx0 st desc A amt now1) st desc B amt now2 hres hhead2
  refine ⟨_, _, h1, h2, ?_⟩
  have hfinal := filter_id_map_update
    (db.transactions.map (fun t =>
      if t.id == tx0.id then updatedTx tx0 st desc A amt now1 else t))
    tid (updatedTx tx0 st desc A amt now1)
    (updatedTx (updatedTx tx0 st desc A amt now1) st desc B amt now2)
    hfil1 hupd1id hupd1id
  rw [hfinal]
  simp [updatedTx, List.append_assoc]

theorem upsert_twice_appends_witness :
    (c2_db.accounts.filter (fun a => a.account_number == "1000000000000001")
        = [demo_account])
      ∧ (c2_db.transactions.filter (fun t => t.id == 11) = [c2_tx])
      ∧ c2_tx.account_id = demo_account.id
      ∧ ∃ db1 db2,
          create_or_update_transaction c2_db 11 "1000000000000001"
              AccountTransactionStateType.completed "d" [[("a", "1")]] 100 1
            = .ok db1
          ∧ create_or_update_transaction db1 11 "1000000000000001"
              AccountTransactionStateType.completed "d" [[("b", "2")]] 100 2
            = .ok db2
          ∧ db2.transactions.filter (fun t => t.id == 11)
              = [{ c2_tx with
                   amount := 100
                   state := AccountTransactionStateType.completed
                   annotations := c2_tx.annotations ++ [[("a", "1")]] ++ [[("b", "2")]]
                   description := "d"
                   timestamp := 2 }] := by
  refine ⟨by decide, by decide, by decide, ?_⟩
  rcases upsert_twice_appends c2_db 11 "1000000000000001" demo_account c2_tx
      AccountTransactionStateType.completed "d" [[("a", "1")]] [[("b", "2")]]
      100 1 2 (by decide) (by decide) (by decide) with ⟨db1, db2, h1, h2, h3⟩
  exact ⟨db1, db2, h1, h2, h3⟩
